import Mathlib

/-!
Shallow embedding of `backend/app/workflows/autonomous_agent.py` — the
plan–act–reflect autonomous agent loop — together with theorems checking the
specification's claims about it.

Modelling conventions:
* Decoded JSON payloads (the `arguments` dicts produced by the structured
  generation client, the fallback payloads the loop constructs, and trace
  metadata) are values of `JValue`; payload dicts are `JObj`.
* The structured generation client is an oracle: a list of `ToolResponse`
  values consumed in call order by `generate_with_tools_async`, plus one
  `Except`-valued outcome for the single `generate_text_async` summary call.
  An exhausted oracle behaves as a raising provider.  Prompt text does not
  influence the oracle, so prompt rendering is not modelled.
* Python exceptions that the source catches become values handled in place;
  exceptions the source does not catch (only the `KeyError` of a bracket
  access on a payload dict is reachable) surface as `PyErr`.
* Two ghost fields instrument the state: `flagWrites` records every
  assignment made to `agent_memory["task_complete"]` after initialisation,
  and `textCalls` counts invocations of `generate_text_async`.
-/

namespace AutonomousAgent

/-- JSON-like Python values, as decoded from the structured client. -/
inductive JValue where
  | null
  | bool (b : Bool)
  | num (n : Int)
  | str (s : String)
  | arr (elems : List JValue)
  | obj (fields : List (String × JValue))

/-- Payload dictionaries (`dict(function_call.args)` always yields a dict). -/
abbrev JObj := List (String × JValue)

mutual

/-- Python `repr` of a JSON-like value. -/
def pyRepr : JValue → String
  | .null => "None"
  | .bool b => if b then "True" else "False"
  | .num n => toString n
  | .str s => "\x27" ++ s ++ "\x27"
  | .arr elems => "[" ++ pyReprElems elems ++ "]"
  | .obj fields => "\x7b" ++ pyReprFields fields ++ "\x7d"

/-- Comma-separated `repr`s of list elements. -/
def pyReprElems : List JValue → String
  | [] => ""
  | [v] => pyRepr v
  | v :: rest => pyRepr v ++ ", " ++ pyReprElems rest

/-- Comma-separated `repr`s of dict entries. -/
def pyReprFields : List (String × JValue) → String
  | [] => ""
  | [(k, v)] => "\x27" ++ k ++ "\x27: " ++ pyRepr v
  | (k, v) :: rest => "\x27" ++ k ++ "\x27: " ++ pyRepr v ++ ", " ++ pyReprFields rest

end

/-- Python `str` of a JSON-like value (as interpolated by f-strings). -/
def pyStr : JValue → String
  | .str s => s
  | v => pyRepr v

/-- Python truthiness of a JSON-like value. -/
def pyTruthy : JValue → Bool
  | .null => false
  | .bool b => b
  | .num n => n != 0
  | .str s => s != ""
  | .arr elems => !elems.isEmpty
  | .obj fields => !fields.isEmpty

mutual

/-- Compact `json.dumps` rendering (the source passes `indent=2`; the extra
whitespace layout is elided, which no claim inspects). -/
def jsonDumps : JValue → String
  | .null => "null"
  | .bool b => if b then "true" else "false"
  | .num n => toString n
  | .str s => "\"" ++ s ++ "\""
  | .arr elems => "[" ++ jsonDumpsElems elems ++ "]"
  | .obj fields => "\x7b" ++ jsonDumpsFields fields ++ "\x7d"

/-- Comma-separated JSON renderings of list elements. -/
def jsonDumpsElems : List JValue → String
  | [] => ""
  | [v] => jsonDumps v
  | v :: rest => jsonDumps v ++ ", " ++ jsonDumpsElems rest

/-- Comma-separated JSON renderings of dict entries. -/
def jsonDumpsFields : List (String × JValue) → String
  | [] => ""
  | [(k, v)] => "\"" ++ k ++ "\": " ++ jsonDumps v
  | (k, v) :: rest => "\"" ++ k ++ "\": " ++ jsonDumps v ++ ", " ++ jsonDumpsFields rest

end

/-- Python `value == "literal"` where the literal is a `str`: only equal
string values compare equal. -/
def isStrEq (v : JValue) (s : String) : Bool :=
  match v with
  | .str t => t == s
  | _ => false

/-- Python `d.get(k, default)` on a payload dict. -/
def getDefault (o : JObj) (k : String) (d : JValue) : JValue :=
  (o.lookup k).getD d

/-- Result of one `generate_with_tools_async` call, per
`core/llm_client.py`: a function-call dict, a plain text reply, or a raised
provider error. -/
inductive ToolResponse where
  | toolCall (name : String) (arguments : JObj)
  | text (content : String)
  | raisedError (msg : String)

/-- Oracle for the structured generation client: structured responses in
call order, plus the single summary-call outcome. -/
structure LLMClient where
  toolResponses : List ToolResponse
  textResponse : Except String String

/-- Definition of a tool available to the autonomous agent
(`ToolDefinition` in the source).  The handler consumes the splatted
`tool_parameters` dict and either returns an observation string or raises. -/
structure ToolDefinition where
  name : String
  description : String
  parameters : JValue := .obj []
  function : Option (JObj → Except String String) := none

/-- Dictionary form of a tool definition (`ToolDefinition.dict`). -/
def ToolDefinition.dict (t : ToolDefinition) : JValue :=
  .obj [("name", .str t.name), ("description", .str t.description),
        ("parameters", t.parameters)]

/-- Trace entry (`AgentResponse` in `models/schemas.py`). -/
structure AgentResponse where
  agent_role : String
  content : String
  metadata : JValue := .obj []

/-- One entry of `agent_memory["iterations"]`.  Keys are added in source
order: `plan` at creation, then `action`/`observation`, then (only on the
reflection exception path) `reflection`. -/
structure IterationRecord where
  plan : JValue
  action : Option JValue := none
  observation : Option String := none
  reflection : Option JValue := none

/-- JSON form of an iteration record, with keys in insertion order. -/
def IterationRecord.toJson (r : IterationRecord) : JValue :=
  .obj ([("plan", r.plan)]
    ++ (match r.action with | some a => [("action", a)] | none => [])
    ++ (match r.observation with | some o => [("observation", .str o)] | none => [])
    ++ (match r.reflection with | some x => [("reflection", x)] | none => []))

/-- Uncaught Python exception reachable in `execute`: a `KeyError` from a
bracket access on a payload dict. -/
inductive PyErr where
  | keyError (k : String)

/-- Mutable state of one `execute` run: the remaining client oracle, the
agent memory, the trace accumulator, the default final response and the
iteration counter, plus the two ghost instrumentation fields. -/
structure AgentState where
  toolResponses : List ToolResponse
  iterations : List IterationRecord
  observations : List String
  task_complete : Bool
  intermediate_steps : List AgentResponse
  final_response : String
  iteration : Nat
  flagWrites : List Bool
  textCalls : Nat

/-- State at entry of the main loop (`agent_memory` initialisation and the
default `final_response`). -/
def initialState (client : List ToolResponse) : AgentState :=
  { toolResponses := client
    iterations := []
    observations := []
    task_complete := false
    intermediate_steps := []
    final_response := "Task processed, but no specific result was generated."
    iteration := 0
    flagWrites := []
    textCalls := 0 }

/-- Consume the next structured-client response; an exhausted oracle
behaves as a raising provider. -/
def takeResponse (s : AgentState) : ToolResponse × AgentState :=
  match s.toolResponses with
  | [] => (.raisedError "no response from provider", s)
  | r :: rest => (r, { s with toolResponses := rest })

/-- Fallback plan substituted when the model returns text or a differently
named call (source line 278). -/
def fallbackPlan : JObj :=
  [("task_understanding", .str "Fallback plan"), ("plan_steps", .arr []),
   ("expected_outcome", .str "Best effort.")]

/-- Error plan substituted when the planning call raises (source line 282). -/
def errorPlan (e : String) : JObj :=
  [("task_understanding", .str ("Error: " ++ e)), ("plan_steps", .arr []),
   ("expected_outcome", .str "Error occurred.")]

/-- Decode of the planning response (source lines 258-282): accept the
arguments when the response is a function call named `create_task_plan`,
fall back on a mismatch, and use the error plan when the call raised. -/
def planPhase : ToolResponse → JObj
  | .toolCall n args => if n = "create_task_plan" then args else fallbackPlan
  | .text _ => fallbackPlan
  | .raisedError e => errorPlan e

/-- Fallback action substituted on a structural mismatch (source line 328). -/
def fallbackAction : JObj :=
  [("action_type", .str "reasoning"),
   ("reasoning", .str "Unable to determine next action.")]

/-- Error action substituted when the action call raises (source line 331). -/
def errorAction (e : String) : JObj :=
  [("action_type", .str "reasoning"),
   ("reasoning", .str ("Error occurred: " ++ e))]

/-- Decode of the action response (source lines 309-331). -/
def actPhase : ToolResponse → JObj
  | .toolCall n args => if n = "execute_action" then args else fallbackAction
  | .text _ => fallbackAction
  | .raisedError e => errorAction e

/-- Invocation `tool.function(**tool_parameters)`: a non-dict parameter
payload makes the splat itself raise, which the same `try` block catches. -/
def callHandler (f : JObj → Except String String) : JValue → Except String String
  | .obj fields => f fields
  | _ => .error "argument after ** must be a mapping"

/-- Linear scan of lines 341-350: find the first tool whose name equals
`tool_name` and whose `function` is set, run it, and `break`; the returned
flag is `tool_found`, which the source sets only after a successful call. -/
def findAndRun (tools : List ToolDefinition) (tool_name tool_parameters : JValue)
    (observation : String) : String × Bool :=
  match tools with
  | [] => (observation, false)
  | t :: rest =>
    if isStrEq tool_name t.name && t.function.isSome then
      match t.function with
      | some f =>
        (match callHandler f tool_parameters with
         | .ok res => (res, true)
         | .error e =>
            ("Error executing tool " ++ pyStr tool_name ++ ": " ++ e, false))
      | none => (observation, false)
    else findAndRun rest tool_name tool_parameters observation

/-- Tool dispatch, lines 339-353: the scan followed by the unconditional
`if not tool_found` overwrite. -/
def dispatchTool (tools : List ToolDefinition) (tool_name tool_parameters : JValue)
    (observation : String) : String :=
  let (observation, tool_found) := findAndRun tools tool_name tool_parameters observation
  if !tool_found then
    "Tool \x27" ++ pyStr tool_name ++ "\x27 not found or not executable."
  else observation

/-- Source `format_action_content` (lines 475-504).  The source performs the
raising access `action["action_type"]`; every call site has just performed
that same access successfully, so a total lookup is faithful there. -/
def format_action_content (action : JObj) (observation : String) : String :=
  let action_type := getDefault action "action_type" .null
  if isStrEq action_type "use_tool" then
    "Tool Used: " ++ pyStr (getDefault action "tool_name" (.str "Unknown")) ++
    "\n\nParameters: " ++ jsonDumps (getDefault action "tool_parameters" (.obj [])) ++
    "\n\nObservation: " ++ observation
  else if isStrEq action_type "reasoning" then
    "Reasoning:\n" ++ pyStr (getDefault action "reasoning" (.str "No reasoning provided.")) ++
    "\n\nObservation: " ++ observation
  else if isStrEq action_type "intermediate_result" || isStrEq action_type "final_result" then
    (if isStrEq action_type "final_result" then "Final" else "Intermediate") ++ " Result:\n" ++
    pyStr (getDefault action "result" (.str "No result provided.")) ++
    "\n\nObservation: " ++ observation
  else
    "Unknown action type: " ++ pyStr action_type ++ "\n\nObservation: " ++ observation

/-- Replace the last record of the iteration log in place (the source
mutates `current_iteration`, which aliases the appended list entry). -/
def updateLast (l : List IterationRecord) (f : IterationRecord → IterationRecord) :
    List IterationRecord :=
  match l with
  | [] => []
  | [r] => [f r]
  | r :: rest => r :: updateLast rest f

/-- Planning segment, lines 224-286: decode the planning response, append
the iteration record, and append the Task Planner trace entry, whose content
performs the raising access `plan["task_understanding"]`. -/
def planningSegment (s : AgentState) : Except (PyErr × AgentState) AgentState :=
  let (r, s) := takeResponse s
  let plan := planPhase r
  let s := { s with iterations := s.iterations ++ [{ plan := .obj plan }] }
  match plan.lookup "task_understanding" with
  | none => .error (.keyError "task_understanding", s)
  | some tu =>
    .ok { s with intermediate_steps := s.intermediate_steps ++
          [{ agent_role := "Task Planner",
             content := "Plan created: " ++ pyStr tu,
             metadata := .obj plan }] }

/-- Acting segment, lines 288-377: decode the action response, perform the
raising access `action["action_type"]`, dispatch, set completion state on a
`final_result`, store action and observation, and append the Action
Executor trace entry. -/
def actingSegment (tools : List ToolDefinition) (s : AgentState) :
    Except (PyErr × AgentState) AgentState :=
  let (r, s) := takeResponse s
  let action := actPhase r
  match action.lookup "action_type" with
  | none => .error (.keyError "action_type", s)
  | some action_type =>
    let (s, observation) :=
      if isStrEq action_type "use_tool" then
        let tool_name := getDefault action "tool_name" (.str "")
        let tool_parameters := getDefault action "tool_parameters" (.obj [])
        (s, dispatchTool tools tool_name tool_parameters "No observation recorded.")
      else if isStrEq action_type "reasoning" then
        (s, "Reasoning: " ++ pyStr (getDefault action "reasoning" (.str "No reasoning provided.")))
      else if isStrEq action_type "intermediate_result" || isStrEq action_type "final_result" then
        let observation := "Result: " ++ pyStr (getDefault action "result" (.str "No result provided."))
        if isStrEq action_type "final_result" then
          ({ s with final_response := pyStr (getDefault action "result" (.str "Task completed."))
                    task_complete := true
                    flagWrites := s.flagWrites ++ [true] }, observation)
        else (s, observation)
      else (s, "No observation recorded.")
    let s := { s with
      iterations := (updateLast s.iterations
        (fun itr => { itr with action := some (.obj action), observation := some observation }))
      observations := s.observations ++ [observation] }
    .ok { s with intermediate_steps := s.intermediate_steps ++
          [{ agent_role := "Action Executor",
             content := format_action_content action observation,
             metadata := .obj [("action", .obj action), ("observation", .str observation)] }] }

/-- Reflection segment, lines 382-439.  The block that copies the
reflection's `task_complete` into memory, stores the reflection, appends the
Progress Reflector trace entry and breaks is indented inside the `except`
handler in the source, so it runs only when the reflection call raises; a
successfully decoded reflection (and the in-`try` mismatch fallback) has no
further effect. -/
def reflectionSegment (s : AgentState) : Except (PyErr × AgentState) AgentState :=
  let (r, s) := takeResponse s
  match r with
  | .toolCall _ _ => .ok s
  | .text _ => .ok s
  | .raisedError e =>
    let reflection : JObj :=
      [("progress_assessment", .str ("Error occurred: " ++ e)),
       ("task_complete", .bool false)]
    let tc := pyTruthy (getDefault reflection "task_complete" (.bool false))
    let s := { s with task_complete := tc, flagWrites := s.flagWrites ++ [tc] }
    let s := { s with iterations := (updateLast s.iterations
                (fun itr => { itr with reflection := some (.obj reflection) })) }
    match reflection.lookup "progress_assessment" with
    | none => .error (.keyError "progress_assessment", s)
    | some pa =>
      .ok { s with intermediate_steps := s.intermediate_steps ++
            [{ agent_role := "Progress Reflector",
               content := "Assessment: " ++ pyStr pa,
               metadata := .obj reflection }] }

/-- One pass of the main loop body (lines 221-439): increment the iteration
counter, then plan, act, and — unless the acting phase completed the task —
reflect. -/
def runIteration (tools : List ToolDefinition) (s : AgentState) :
    Except (PyErr × AgentState) AgentState := do
  let s := { s with iteration := s.iteration + 1 }
  let s ← planningSegment s
  let s ← actingSegment tools s
  if s.task_complete then pure s else reflectionSegment s

/-- The `while iteration < max_iterations and not task_complete` loop, with
the remaining iteration budget as fuel. -/
def loop (tools : List ToolDefinition) : Nat → AgentState →
    Except (PyErr × AgentState) AgentState
  | 0, s => .ok s
  | fuel + 1, s =>
    if s.task_complete then .ok s
    else do
      let s ← runIteration tools s
      loop tools fuel s

/-- Serialised `agent_memory` for the Task Summarizer metadata. -/
def memoryJson (task : String) (tools : List ToolDefinition)
    (iters : List IterationRecord) (obs : List String) (tc : Bool) : JValue :=
  .obj [("task", .str task),
        ("tools", .arr (tools.map ToolDefinition.dict)),
        ("iterations", .arr (iters.map IterationRecord.toJson)),
        ("observations", .arr (obs.map .str)),
        ("task_complete", .bool tc)]

/-- The trailing Task Summarizer trace entry (lines 459-471). -/
def summarizerEntry (task : String) (tools : List ToolDefinition) (s : AgentState) :
    AgentResponse :=
  { agent_role := "Task Summarizer"
    content := "Summary of execution:\n" ++
      "- Completed " ++ toString s.iteration ++ " iterations\n" ++
      "- Task complete: " ++ (if s.task_complete then "Yes" else "No") ++ "\n" ++
      "- Final response generated"
    metadata := .obj [("iterations", .num s.iteration),
                      ("task_complete", .bool s.task_complete),
                      ("memory", memoryJson task tools s.iterations s.observations s.task_complete)] }

/-- Post-loop processing (lines 441-471): when the task is not complete, one
summary call whose failure is appended to the default response; then the
unconditional Task Summarizer entry. -/
def finishRun (task : String) (tools : List ToolDefinition)
    (textResponse : Except String String) (s : AgentState) : AgentState :=
  let s :=
    if !s.task_complete then
      let s := { s with textCalls := s.textCalls + 1 }
      match textResponse with
      | .ok t => { s with final_response := t }
      | .error e => { s with final_response := s.final_response ++ " Error generating summary: " ++ e }
    else s
  { s with intermediate_steps := s.intermediate_steps ++ [summarizerEntry task tools s] }

/-- Full run of `execute`, exposing the final state.  `max_iterations` is a
Python `int`; a non-positive value gives zero loop passes.  The persona
configuration only shapes prompt text, which the oracle ignores, so it does
not appear. -/
def runAgent (user_query : String) (max_iterations : Int)
    (tools : List ToolDefinition) (client : LLMClient) :
    Except (PyErr × AgentState) AgentState :=
  (loop tools max_iterations.toNat (initialState client.toolResponses)).map
    (finishRun user_query tools client.textResponse)

/-- Source `execute`: returns the pair `(final_response, intermediate_steps)`
or the uncaught exception. -/
def execute (user_query : String) (max_iterations : Int)
    (tools : List ToolDefinition) (client : LLMClient) :
    Except PyErr (String × List AgentResponse) :=
  match runAgent user_query max_iterations tools client with
  | .ok s => .ok (s.final_response, s.intermediate_steps)
  | .error (e, _) => .error e

/-! Projections of a run, used to state the claims. -/

/-- Roles of the returned trace entries, in order (`none` when `execute`
raises). -/
def execRoles (user_query : String) (max_iterations : Int)
    (tools : List ToolDefinition) (client : LLMClient) : Option (List String) :=
  (execute user_query max_iterations tools client).toOption.map
    (fun p => p.2.map AgentResponse.agent_role)

/-- The returned final response (`none` when `execute` raises). -/
def execResponse (user_query : String) (max_iterations : Int)
    (tools : List ToolDefinition) (client : LLMClient) : Option String :=
  (execute user_query max_iterations tools client).toOption.map Prod.fst

/-- The `task_complete` flag of the final agent memory (`none` when
`execute` raises). -/
def finalMemoryFlag (user_query : String) (max_iterations : Int)
    (tools : List ToolDefinition) (client : LLMClient) : Option Bool :=
  (runAgent user_query max_iterations tools client).toOption.map AgentState.task_complete

/-- Every write made to `agent_memory["task_complete"]` during the run,
whether it ended normally or in an uncaught exception. -/
def finalFlagWrites (user_query : String) (max_iterations : Int)
    (tools : List ToolDefinition) (client : LLMClient) : List Bool :=
  match runAgent user_query max_iterations tools client with
  | .ok s => s.flagWrites
  | .error (_, s) => s.flagWrites

/-- The number of loop passes performed by the run. -/
def finalIteration (user_query : String) (max_iterations : Int)
    (tools : List ToolDefinition) (client : LLMClient) : Nat :=
  match runAgent user_query max_iterations tools client with
  | .ok s => s.iteration
  | .error (_, s) => s.iteration

/-- The number of `generate_text_async` summary calls performed by the run. -/
def finalTextCalls (user_query : String) (max_iterations : Int)
    (tools : List ToolDefinition) (client : LLMClient) : Nat :=
  match runAgent user_query max_iterations tools client with
  | .ok s => s.textCalls
  | .error (_, s) => s.textCalls

/-! Concrete client responses used as test fixtures. -/

/-- A well-formed planning function call. -/
def planCallResponse : ToolResponse :=
  .toolCall "create_task_plan"
    [("task_understanding", .str "plan"), ("plan_steps", .arr []),
     ("expected_outcome", .str "ok")]

/-- A well-formed `reasoning` action call. -/
def reasoningActionResponse : ToolResponse :=
  .toolCall "execute_action"
    [("action_type", .str "reasoning"), ("reasoning", .str "think")]

/-- A well-formed reflection call that declares the task complete. -/
def completedReflectionResponse : ToolResponse :=
  .toolCall "reflect_on_progress"
    [("progress_assessment", .str "all done"), ("task_complete", .bool true)]

/-- A well-formed `final_result` action call with result `"Done"`. -/
def finalResultResponse : ToolResponse :=
  .toolCall "execute_action"
    [("action_type", .str "final_result"), ("result", .str "Done")]

/-- A structured-client response whose payload carries the fields the loop
accesses with raising bracket lookups: `task_understanding` in accepted
plan calls and `action_type` in accepted action calls.  Mismatched and
raising responses are always safe, because the substituted fallback
payloads carry the fields. -/
def payloadSafe (r : ToolResponse) : Bool :=
  match r with
  | .toolCall n args =>
    if n = "create_task_plan" then (args.lookup "task_understanding").isSome
    else if n = "execute_action" then (args.lookup "action_type").isSome
    else true
  | .text _ => true
  | .raisedError _ => true

/-- Invariant of the completion flag: while the flag is down every write so
far was `false`; once it is up, a single final `true` write ended the
all-`false` prefix. -/
def FlagInv (s : AgentState) : Prop :=
  (s.task_complete = false ∧ ∃ k, s.flagWrites = List.replicate k false) ∨
  (s.task_complete = true ∧ ∃ k, s.flagWrites = List.replicate k false ++ [true])

/-! Theorems checking the specification claims. -/

/-- Decoded plans carry `task_understanding` whenever the response payload
is safe. -/
theorem planPhase_lookup_isSome (r : ToolResponse) (h : payloadSafe r = true) :
    ((planPhase r).lookup "task_understanding").isSome = true := by
  cases r with
  | toolCall n args =>
    by_cases hn : n = "create_task_plan"
    · simpa [payloadSafe, planPhase, hn] using h
    · simp [planPhase, hn, fallbackPlan, List.lookup]
  | text c => simp [planPhase, fallbackPlan, List.lookup]
  | raisedError e => simp [planPhase, errorPlan, List.lookup]

/-- Decoded actions carry `action_type` whenever the response payload is
safe. -/
theorem actPhase_lookup_isSome (r : ToolResponse) (h : payloadSafe r = true) :
    ((actPhase r).lookup "action_type").isSome = true := by
  cases r with
  | toolCall n args =>
    by_cases hn : n = "execute_action"
    · have hn' : n ≠ "create_task_plan" := by subst hn; decide
      simpa [payloadSafe, actPhase, hn, hn'] using h
    · simp [actPhase, hn, fallbackAction, List.lookup]
  | text c => simp [actPhase, fallbackAction, List.lookup]
  | raisedError e => simp [actPhase, errorAction, List.lookup]

/-- Bind of a succeeding `Except` computation, for rewriting desugared
`do` blocks. -/
theorem exceptBind_ok {ε α β : Type} (a : α) (f : α → Except ε β) :
    (Except.ok a >>= f : Except ε β) = f a := rfl

/-- The response handed to a phase is drawn from the oracle, and the
remaining oracle is a suffix, so payload safety is hereditary. -/
theorem takeResponse_safe (s : AgentState)
    (h : ∀ r ∈ s.toolResponses, payloadSafe r = true) :
    payloadSafe (takeResponse s).1 = true ∧
      ∀ r ∈ (takeResponse s).2.toolResponses, payloadSafe r = true := by
  cases hres : s.toolResponses with
  | nil =>
    constructor
    · simp [takeResponse, hres, payloadSafe]
    · simp [takeResponse, hres]
  | cons r rest =>
    constructor
    · simp only [takeResponse, hres]
      exact h r (by simp [hres])
    · simp only [takeResponse, hres]
      intro x hx
      exact h x (by simp [hres, hx])

/-- The planning segment succeeds on a safe oracle and leaves a safe
oracle. -/
theorem planningSegment_ok (s : AgentState)
    (h : ∀ r ∈ s.toolResponses, payloadSafe r = true) :
    ∃ s', planningSegment s = .ok s' ∧
      ∀ r ∈ s'.toolResponses, payloadSafe r = true := by
  obtain ⟨h1, h2⟩ := takeResponse_safe s h
  obtain ⟨tu, htu⟩ := Option.isSome_iff_exists.mp (planPhase_lookup_isSome _ h1)
  unfold planningSegment
  rcases htk : takeResponse s with ⟨r, s2⟩
  rw [htk] at htu h2
  dsimp only at htu h2 ⊢
  rw [htu]
  exact ⟨_, rfl, by simpa using h2⟩

/-- The acting segment succeeds on a safe oracle and leaves a safe
oracle. -/
theorem actingSegment_ok (tools : List ToolDefinition) (s : AgentState)
    (h : ∀ r ∈ s.toolResponses, payloadSafe r = true) :
    ∃ s', actingSegment tools s = .ok s' ∧
      ∀ r ∈ s'.toolResponses, payloadSafe r = true := by
  obtain ⟨h1, h2⟩ := takeResponse_safe s h
  obtain ⟨at0, hat⟩ := Option.isSome_iff_exists.mp (actPhase_lookup_isSome _ h1)
  unfold actingSegment
  rcases htk : takeResponse s with ⟨r, s2⟩
  rw [htk] at hat h2
  dsimp only at hat h2 ⊢
  rw [hat]
  refine ⟨_, rfl, ?_⟩
  intro x hx
  apply h2 x
  revert hx
  split
  · simp
  · split
    · simp
    · split
      · split <;> simp
      · simp

/-- The reflection segment never raises: the only raising access it can
perform is on the fallback payload it just constructed, which carries the
field. -/
theorem reflectionSegment_ok (s : AgentState)
    (h : ∀ r ∈ s.toolResponses, payloadSafe r = true) :
    ∃ s', reflectionSegment s = .ok s' ∧
      ∀ r ∈ s'.toolResponses, payloadSafe r = true := by
  obtain ⟨h1, h2⟩ := takeResponse_safe s h
  unfold reflectionSegment
  rcases htk : takeResponse s with ⟨r, s2⟩
  rw [htk] at h2
  dsimp only at h2 ⊢
  cases r with
  | toolCall n args => exact ⟨_, rfl, h2⟩
  | text c => exact ⟨_, rfl, h2⟩
  | raisedError e => exact ⟨_, rfl, by simpa using h2⟩

/-- One loop pass succeeds on a safe oracle and leaves a safe oracle. -/
theorem runIteration_ok (tools : List ToolDefinition) (s : AgentState)
    (h : ∀ r ∈ s.toolResponses, payloadSafe r = true) :
    ∃ s', runIteration tools s = .ok s' ∧
      ∀ r ∈ s'.toolResponses, payloadSafe r = true := by
  obtain ⟨s1, hs1, h1⟩ := planningSegment_ok { s with iteration := s.iteration + 1 } (by simpa using h)
  obtain ⟨s2, hs2, h2⟩ := actingSegment_ok tools s1 h1
  by_cases hc : s2.task_complete
  · exact ⟨s2, by simp [runIteration, hs1, hs2, hc, exceptBind_ok, pure, Except.pure], h2⟩
  · obtain ⟨s3, hs3, h3⟩ := reflectionSegment_ok s2 h2
    exact ⟨s3, by simp [runIteration, hs1, hs2, hc, hs3, exceptBind_ok], h3⟩

/-- The main loop succeeds on a safe oracle. -/
theorem loop_ok (tools : List ToolDefinition) (fuel : Nat) (s : AgentState)
    (h : ∀ r ∈ s.toolResponses, payloadSafe r = true) :
    ∃ s', loop tools fuel s = .ok s' := by
  induction fuel generalizing s with
  | zero => exact ⟨s, rfl⟩
  | succ n ih =>
    by_cases hc : s.task_complete
    · exact ⟨s, by simp [loop, hc]⟩
    · obtain ⟨s1, hs1, h1⟩ := runIteration_ok tools s h
      obtain ⟨s2, hs2⟩ := ih s1 h1
      exact ⟨s2, by simp [loop, hc, hs1, hs2, exceptBind_ok]⟩

/-- C3 amended: provided every structured planning result carries
`task_understanding` and every structured action result carries
`action_type` (the two schema-required fields the loop reads with raising
bracket accesses), `execute` does not raise: the caller always receives a
final response string and a non-empty trace.  Without that proviso the
claim fails, see the counterexample. -/
theorem c3_no_raise_on_safe_payloads (user_query : String) (max_iterations : Int)
    (tools : List ToolDefinition) (client : LLMClient)
    (h : ∀ r ∈ client.toolResponses, payloadSafe r = true) :
    ∃ resp trace, execute user_query max_iterations tools client = .ok (resp, trace) ∧
      trace ≠ [] := by
  obtain ⟨s', hs'⟩ := loop_ok tools max_iterations.toNat (initialState client.toolResponses) (by simpa [initialState] using h)
  unfold execute runAgent
  rw [hs']
  refine ⟨_, _, rfl, ?_⟩
  simp [finishRun]

/-- C3 witness: a concrete safe client (here: an exhausted oracle, which
behaves as a raising provider in every phase) on which `execute` returns a
result and a non-empty trace. -/
theorem c3_no_raise_on_safe_payloads_witness :
    ∃ resp trace,
      execute "q" 1 [] ⟨[], .ok "summary"⟩ = .ok (resp, trace) ∧ trace ≠ [] :=
  c3_no_raise_on_safe_payloads "q" 1 [] ⟨[], .ok "summary"⟩ (by simp)

/-- C5 amended: a structural mismatch of the planning response (text reply
or a differently named call) substitutes the fixed fallback plan with
`task_understanding = "Fallback plan"` and empty steps, while a provider
failure substitutes the error plan with `task_understanding = "Error: <e>"`
and empty steps; in either case the planning segment succeeds and the loop
continues — planning failure is never fatal. -/
theorem c5_mismatch_vs_failure_fallbacks (t n e : String) (args : JObj)
    (hn : n ≠ "create_task_plan")
    (s : AgentState) (r : ToolResponse) (rest : List ToolResponse)
    (hr : s.toolResponses = r :: rest)
    (hmr : ∀ a, r ≠ ToolResponse.toolCall "create_task_plan" a) :
    planPhase (.text t) = fallbackPlan ∧
    planPhase (.toolCall n args) = fallbackPlan ∧
    planPhase (.raisedError e) = errorPlan e ∧
    ∃ s', planningSegment s = .ok s' ∧ s'.toolResponses = rest := by
  refine ⟨rfl, by simp [planPhase, hn], rfl, ?_⟩
  unfold planningSegment takeResponse
  rw [hr]
  dsimp only
  cases r with
  | toolCall n2 a2 =>
    have hn2 : n2 ≠ "create_task_plan" := by
      intro hh
      exact hmr a2 (by rw [hh])
    simp only [planPhase, if_neg hn2]
    exact ⟨_, rfl, rfl⟩
  | text c => exact ⟨_, rfl, rfl⟩
  | raisedError e2 => exact ⟨_, rfl, rfl⟩

/-- C5 witness: the three fallback equations and the non-fatal continuation
at a concrete mismatching client response. -/
theorem c5_mismatch_vs_failure_fallbacks_witness :
    planPhase (.text "hello") = fallbackPlan ∧
    planPhase (.toolCall "other_call" []) = fallbackPlan ∧
    planPhase (.raisedError "boom") = errorPlan "boom" ∧
    ∃ s', planningSegment (initialState [.text "hello"]) = .ok s' ∧
      s'.toolResponses = [] :=
  c5_mismatch_vs_failure_fallbacks "hello" "other_call" "boom" []
    (by decide) (initialState [.text "hello"]) (.text "hello") []
    rfl (fun a h => by cases h)

/-- The planning segment at an accepted `create_task_plan` call, written
out as an explicit state transformation. -/
theorem planningSegment_toolCall (s : AgentState) (p_args : JObj)
    (rest : List ToolResponse) (pu : JValue)
    (h1 : s.toolResponses = .toolCall "create_task_plan" p_args :: rest)
    (h2 : p_args.lookup "task_understanding" = some pu) :
    planningSegment s = .ok { s with
      toolResponses := rest
      iterations := s.iterations ++ [{ plan := .obj p_args }]
      intermediate_steps := s.intermediate_steps ++
        [{ agent_role := "Task Planner",
           content := "Plan created: " ++ pyStr pu,
           metadata := .obj p_args }] } := by
  unfold planningSegment takeResponse
  rw [h1]
  have hp : planPhase (.toolCall "create_task_plan" p_args) = p_args := by
    simp [planPhase]
  dsimp only
  rw [hp, h2]

/-- The acting segment at an accepted `final_result` action, written out as
an explicit state transformation: the completion flag goes up, the final
response is assigned from the action's `result`, and only the Action
Executor trace entry is appended. -/
theorem actingSegment_finalResult (tools : List ToolDefinition) (s : AgentState)
    (a_args : JObj) (rest : List ToolResponse)
    (h1 : s.toolResponses = .toolCall "execute_action" a_args :: rest)
    (h3 : a_args.lookup "action_type" = some (.str "final_result")) :
    actingSegment tools s = .ok { s with
      toolResponses := rest
      iterations := (updateLast s.iterations (fun itr => { itr with
        action := some (.obj a_args)
        observation := some ("Result: " ++
          pyStr (getDefault a_args "result" (.str "No result provided."))) }))
      observations := s.observations ++
        ["Result: " ++ pyStr (getDefault a_args "result" (.str "No result provided."))]
      task_complete := true
      flagWrites := s.flagWrites ++ [true]
      final_response := pyStr (getDefault a_args "result" (.str "Task completed."))
      intermediate_steps := s.intermediate_steps ++
        [{ agent_role := "Action Executor",
           content := format_action_content a_args
             ("Result: " ++ pyStr (getDefault a_args "result" (.str "No result provided.")))
           metadata := .obj [("action", .obj a_args),
             ("observation", .str ("Result: " ++
               pyStr (getDefault a_args "result" (.str "No result provided."))))] }] } := by
  unfold actingSegment takeResponse
  rw [h1]
  have ha : actPhase (.toolCall "execute_action" a_args) = a_args := by
    simp [actPhase]
  dsimp only
  rw [ha, h3]
  simp [isStrEq]

/-- C6: an acting phase that yields a `final_result` action sets
`task_complete = true`, assigns the final answer from the action's
`result`, and ends the iteration without consuming a reflection response or
appending a Progress Reflector entry; concretely, a `final_result` with
result `"Done"` on iteration 1 yields `final_response = "Done"` and a trace
of exactly Task Planner and Action Executor before the Task Summarizer. -/
theorem c6_final_result_short_circuits (tools : List ToolDefinition)
    (s : AgentState) (p_args a_args : JObj) (rest : List ToolResponse) (pu : JValue)
    (h1 : s.toolResponses =
      .toolCall "create_task_plan" p_args :: .toolCall "execute_action" a_args :: rest)
    (h2 : p_args.lookup "task_understanding" = some pu)
    (h3 : a_args.lookup "action_type" = some (.str "final_result")) :
    (∃ s', runIteration tools s = .ok s' ∧ s'.task_complete = true ∧
      s'.final_response = pyStr (getDefault a_args "result" (.str "Task completed.")) ∧
      s'.toolResponses = rest ∧
      s'.intermediate_steps.map AgentResponse.agent_role =
        s.intermediate_steps.map AgentResponse.agent_role ++
          ["Task Planner", "Action Executor"]) ∧
    execResponse "q" 10 [] ⟨[planCallResponse, finalResultResponse], .error "unused"⟩ =
      some "Done" ∧
    execRoles "q" 10 [] ⟨[planCallResponse, finalResultResponse], .error "unused"⟩ =
      some ["Task Planner", "Action Executor", "Task Summarizer"] := by
  refine ⟨?_, rfl, rfl⟩
  have hplan := planningSegment_toolCall { s with iteration := s.iteration + 1 }
    p_args (.toolCall "execute_action" a_args :: rest) pu (by simpa using h1) h2
  dsimp only at hplan
  have hact := actingSegment_finalResult tools
    { toolResponses := ToolResponse.toolCall "execute_action" a_args :: rest
      iterations := s.iterations ++ [{ plan := .obj p_args }]
      observations := s.observations
      task_complete := s.task_complete
      intermediate_steps := s.intermediate_steps ++
        [{ agent_role := "Task Planner", content := "Plan created: " ++ pyStr pu,
           metadata := .obj p_args }]
      final_response := s.final_response
      iteration := s.iteration + 1
      flagWrites := s.flagWrites
      textCalls := s.textCalls } a_args rest rfl h3
  dsimp only at hact
  refine ⟨{ toolResponses := rest
            iterations := (updateLast (s.iterations ++ [{ plan := .obj p_args }])
              (fun itr => { itr with
                action := some (.obj a_args)
                observation := some ("Result: " ++
                  pyStr (getDefault a_args "result" (.str "No result provided."))) }))
            observations := s.observations ++
              ["Result: " ++ pyStr (getDefault a_args "result" (.str "No result provided."))]
            task_complete := true
            intermediate_steps := (s.intermediate_steps ++
              [{ agent_role := "Task Planner", content := "Plan created: " ++ pyStr pu,
                 metadata := .obj p_args }]) ++
              [{ agent_role := "Action Executor",
                 content := format_action_content a_args
                   ("Result: " ++ pyStr (getDefault a_args "result" (.str "No result provided.")))
                 metadata := .obj [("action", .obj a_args),
                   ("observation", .str ("Result: " ++
                     pyStr (getDefault a_args "result" (.str "No result provided."))))] }]
            final_response := pyStr (getDefault a_args "result" (.str "Task completed."))
            iteration := s.iteration + 1
            flagWrites := s.flagWrites ++ [true]
            textCalls := s.textCalls }, ?_, rfl, rfl, rfl, ?_⟩
  · unfold runIteration
    dsimp only
    simp only [hplan, exceptBind_ok]
    simp only [hact, exceptBind_ok]
    rfl
  · simp

/-- C6 witness: the short-circuit property applied at the concrete
Scenario B client. -/
theorem c6_final_result_short_circuits_witness :
    (∃ s', runIteration [] (initialState [planCallResponse, finalResultResponse]) = .ok s' ∧
      s'.task_complete = true ∧
      s'.final_response =
        pyStr (getDefault [("action_type", JValue.str "final_result"),
          ("result", JValue.str "Done")] "result" (.str "Task completed.")) ∧
      s'.toolResponses = [] ∧
      s'.intermediate_steps.map AgentResponse.agent_role =
        (initialState [planCallResponse, finalResultResponse]).intermediate_steps.map
          AgentResponse.agent_role ++ ["Task Planner", "Action Executor"]) ∧
    execResponse "q" 10 [] ⟨[planCallResponse, finalResultResponse], .error "unused"⟩ =
      some "Done" ∧
    execRoles "q" 10 [] ⟨[planCallResponse, finalResultResponse], .error "unused"⟩ =
      some ["Task Planner", "Action Executor", "Task Summarizer"] :=
  c6_final_result_short_circuits [] (initialState [planCallResponse, finalResultResponse])
    _ _ [] (.str "plan") rfl rfl rfl

/-- C1: the claim states that a reflection completing with
`task_complete = true` copies that value into memory and stops the loop
before the next planning phase.  The code does neither: with a client whose
reflections all succeed with `task_complete = true` and two allowed
iterations, a second Task Planner phase still runs after the first completed
reflection, the final memory flag is still `false`, and the summary pass
runs.  The block that should copy the flag and stop sits inside the
reflection `except` handler (source lines 429-439), so it is skipped
whenever the reflection succeeds. -/
theorem c1_completed_reflection_is_ignored :
    execRoles "q" 2 []
      ⟨[planCallResponse, reasoningActionResponse, completedReflectionResponse,
        planCallResponse, reasoningActionResponse, completedReflectionResponse],
       .ok "summary"⟩ =
      some ["Task Planner", "Action Executor", "Task Planner", "Action Executor",
            "Task Summarizer"] ∧
    finalMemoryFlag "q" 2 []
      ⟨[planCallResponse, reasoningActionResponse, completedReflectionResponse,
        planCallResponse, reasoningActionResponse, completedReflectionResponse],
       .ok "summary"⟩ = some false := by
  constructor <;> rfl

/-- C2: the claim states that a full plan-act-reflect cycle appends three
trace entries and that the Progress Reflector entry is appended on both the
success and the failure branch of the reflection.  In the code the append
sits inside the reflection `except` handler only: a cycle whose reflection
call succeeds contributes two entries and no Progress Reflector entry,
while a cycle whose reflection call raises does append one. -/
theorem c2_reflector_entry_only_on_failure :
    execRoles "q" 1 []
      ⟨[planCallResponse, reasoningActionResponse, completedReflectionResponse],
       .ok "summary"⟩ =
      some ["Task Planner", "Action Executor", "Task Summarizer"] ∧
    execRoles "q" 1 []
      ⟨[planCallResponse, reasoningActionResponse, .raisedError "boom"],
       .ok "summary"⟩ =
      some ["Task Planner", "Action Executor", "Progress Reflector",
            "Task Summarizer"] := by
  constructor <;> rfl

/-- C3 counterexample: a structured planning result whose argument payload
omits the schema-required `task_understanding` field makes `execute` raise a
`KeyError` at the `plan["task_understanding"]` access, so the caller
receives no response and no trace. -/
theorem c3_counterexample :
    execute "q" 1 [] ⟨[.toolCall "create_task_plan" []], .ok "summary"⟩ =
      .error (.keyError "task_understanding") := rfl

/-- C4: the claim states that a raising handler of a matched registered
tool turns into an observation string describing the handler error.  The
scan does compute that string, but `tool_found` is set only after a
successful call, so the trailing `if not tool_found` overwrites it: the
recorded observation is the not-found message.  The fault still does not
propagate. -/
theorem c4_handler_error_clobbered :
    findAndRun
      [{ name := "echo", description := "d",
         function := some (fun _ => .error "boom") }]
      (.str "echo") (.obj []) "No observation recorded." =
      ("Error executing tool echo: boom", false) ∧
    dispatchTool
      [{ name := "echo", description := "d",
         function := some (fun _ => .error "boom") }]
      (.str "echo") (.obj []) "No observation recorded." =
      "Tool \x27echo\x27 not found or not executable." := by
  constructor <;> rfl

/-- C5 counterexample: the claim states that a provider failure during
planning substitutes the fixed fallback plan with
`task_understanding = "Fallback plan"`.  On a raised planning error the code
instead substitutes the error plan, whose `task_understanding` is
`"Error: <message>"`. -/
theorem c5_counterexample :
    planPhase (.raisedError "network down") = errorPlan "network down" ∧
    getDefault (planPhase (.raisedError "network down")) "task_understanding" .null =
      .str "Error: network down" ∧
    "Error: network down" ≠ "Fallback plan" := by
  refine ⟨rfl, rfl, ?_⟩
  decide

/-- The popped state of `takeResponse` changes only the oracle. -/
theorem takeResponse_frame (s : AgentState) :
    (takeResponse s).2.iteration = s.iteration ∧
    (takeResponse s).2.textCalls = s.textCalls ∧
    (takeResponse s).2.flagWrites = s.flagWrites ∧
    (takeResponse s).2.task_complete = s.task_complete := by
  unfold takeResponse
  split <;> simp

/-- The planning segment never touches the iteration counter, the summary
call counter, the completion flag, or its write log — on the success and on
the raising path alike. -/
theorem planningSegment_frame (s : AgentState) :
    (∀ s', planningSegment s = .ok s' →
      s'.iteration = s.iteration ∧ s'.textCalls = s.textCalls ∧
      s'.flagWrites = s.flagWrites ∧ s'.task_complete = s.task_complete) ∧
    (∀ e s', planningSegment s = .error (e, s') →
      s'.iteration = s.iteration ∧ s'.textCalls = s.textCalls ∧
      s'.flagWrites = s.flagWrites ∧ s'.task_complete = s.task_complete) := by
  obtain ⟨hi, ht, hf, hc⟩ := takeResponse_frame s
  unfold planningSegment
  rcases htk : takeResponse s with ⟨r, s2⟩
  rw [htk] at hi ht hf hc
  dsimp only at hi ht hf hc ⊢
  constructor
  · intro s' h
    split at h
    · simp at h
    · cases h
      exact ⟨hi, ht, hf, hc⟩
  · intro e s' h
    split at h
    · cases h
      exact ⟨hi, ht, hf, hc⟩
    · simp at h

/-- The acting segment never touches the iteration counter or the summary
call counter. -/
theorem actingSegment_counter_frame (tools : List ToolDefinition) (s : AgentState) :
    (∀ s', actingSegment tools s = .ok s' →
      s'.iteration = s.iteration ∧ s'.textCalls = s.textCalls) ∧
    (∀ e s', actingSegment tools s = .error (e, s') →
      s'.iteration = s.iteration ∧ s'.textCalls = s.textCalls) := by
  obtain ⟨hi, ht, hf, hc⟩ := takeResponse_frame s
  unfold actingSegment
  rcases htk : takeResponse s with ⟨r, s2⟩
  rw [htk] at hi ht hf hc
  dsimp only at hi ht hf hc ⊢
  constructor
  · intro s' h
    split at h
    · simp at h
    · cases h
      constructor
      · revert hi
        split <;> (try split) <;> (try split) <;> (try split) <;> simp
      · revert ht
        split <;> (try split) <;> (try split) <;> (try split) <;> simp
  · intro e s' h
    split at h
    · cases h
      exact ⟨hi, ht⟩
    · simp at h

/-- On a successful pass of the acting segment, the completion flag either
stays as it was with no new write, or goes up with a single `true` write;
on the raising path nothing is written. -/
theorem actingSegment_flag (tools : List ToolDefinition) (s : AgentState) :
    (∀ s', actingSegment tools s = .ok s' →
      (s'.task_complete = s.task_complete ∧ s'.flagWrites = s.flagWrites) ∨
      (s'.task_complete = true ∧ s'.flagWrites = s.flagWrites ++ [true])) ∧
    (∀ e s', actingSegment tools s = .error (e, s') →
      s'.task_complete = s.task_complete ∧ s'.flagWrites = s.flagWrites) := by
  obtain ⟨hi, ht, hf, hc⟩ := takeResponse_frame s
  unfold actingSegment
  rcases htk : takeResponse s with ⟨r, s2⟩
  rw [htk] at hi ht hf hc
  dsimp only at hi ht hf hc ⊢
  constructor
  · intro s' h
    split at h
    · simp at h
    · cases h
      revert hf hc
      split <;> (try split) <;> (try split) <;> (try split) <;>
        (intro hf hc) <;> simp [hf, hc]
  · intro e s' h
    split at h
    · cases h
      exact ⟨hc, hf⟩
    · simp at h

/-- The reflection segment never touches the iteration counter or the
summary call counter, and its only flag effect — reached when the
reflection call raises — is a single `false` write that leaves the flag
down. -/
theorem reflectionSegment_frame (s : AgentState) :
    (∀ s', reflectionSegment s = .ok s' →
      s'.iteration = s.iteration ∧ s'.textCalls = s.textCalls ∧
      ((s'.task_complete = s.task_complete ∧ s'.flagWrites = s.flagWrites) ∨
       (s'.task_complete = false ∧ s'.flagWrites = s.flagWrites ++ [false]))) ∧
    (∀ e s', reflectionSegment s = .error (e, s') →
      s'.iteration = s.iteration ∧ s'.textCalls = s.textCalls ∧
      ((s'.task_complete = s.task_complete ∧ s'.flagWrites = s.flagWrites) ∨
       (s'.task_complete = false ∧ s'.flagWrites = s.flagWrites ++ [false]))) := by
  obtain ⟨hi, ht, hf, hc⟩ := takeResponse_frame s
  unfold reflectionSegment
  rcases htk : takeResponse s with ⟨r, s2⟩
  rw [htk] at hi ht hf hc
  dsimp only at hi ht hf hc ⊢
  constructor
  · intro s' h
    cases r with
    | toolCall n args =>
      cases h
      exact ⟨hi, ht, .inl ⟨hc, hf⟩⟩
    | text c =>
      cases h
      exact ⟨hi, ht, .inl ⟨hc, hf⟩⟩
    | raisedError e =>
      dsimp only at h
      cases h
      refine ⟨hi, ht, .inr ⟨rfl, ?_⟩⟩
      rw [hf]
      rfl
  · intro e s' h
    cases r with
    | toolCall n args => simp at h
    | text c => simp at h
    | raisedError e2 => simp at h

/-- Bind of a raising `Except` computation. -/
theorem exceptBind_error {ε α β : Type} (e : ε) (f : α → Except ε β) :
    (Except.error e >>= f : Except ε β) = Except.error e := rfl

/-- Pure is `ok` for `Except`. -/
theorem exceptPure {ε α : Type} (a : α) :
    (pure a : Except ε α) = Except.ok a := rfl

/-- One loop pass advances the iteration counter by exactly one, performs
no summary call, and preserves the flag invariant when entered with the
flag down — on the success and on the raising path alike. -/
theorem runIteration_frame (tools : List ToolDefinition) (s : AgentState)
    (hpre : s.task_complete = false ∧ ∃ k, s.flagWrites = List.replicate k false) :
    (∀ s', runIteration tools s = .ok s' →
      s'.iteration = s.iteration + 1 ∧ s'.textCalls = s.textCalls ∧ FlagInv s') ∧
    (∀ e s', runIteration tools s = .error (e, s') →
      s'.iteration = s.iteration + 1 ∧ s'.textCalls = s.textCalls ∧ FlagInv s') := by
  obtain ⟨hc0, k0, hk0⟩ := hpre
  unfold runIteration
  dsimp only
  cases hp : planningSegment { s with iteration := s.iteration + 1 } with
  | error ep =>
    obtain ⟨e1, sp⟩ := ep
    obtain ⟨hpi, hpt, hpf, hpc⟩ := (planningSegment_frame _).2 e1 sp hp
    dsimp only at hpi hpt hpf hpc
    simp only [exceptBind_error]
    constructor
    · intro s' h
      exact Except.noConfusion h
    · intro e s' h
      injection h with h2
      injection h2 with he hs
      subst he
      subst hs
      exact ⟨hpi, hpt, .inl ⟨by rw [hpc, hc0], k0, by rw [hpf, hk0]⟩⟩
  | ok p =>
    obtain ⟨hpi, hpt, hpf, hpc⟩ := (planningSegment_frame _).1 p hp
    dsimp only at hpi hpt hpf hpc
    simp only [exceptBind_ok]
    cases ha : actingSegment tools p with
    | error ea =>
      obtain ⟨e2, sa⟩ := ea
      obtain ⟨hai, hat⟩ := (actingSegment_counter_frame tools p).2 e2 sa ha
      obtain ⟨hac, haf⟩ := (actingSegment_flag tools p).2 e2 sa ha
      simp only [exceptBind_error]
      constructor
      · intro s' h
        exact Except.noConfusion h
      · intro e s' h
        injection h with h2
        injection h2 with he hs
        subst he
        subst hs
        refine ⟨by rw [hai, hpi], by rw [hat, hpt], .inl ⟨by rw [hac, hpc, hc0], k0, ?_⟩⟩
        rw [haf, hpf, hk0]
    | ok a =>
      obtain ⟨hai, hat⟩ := (actingSegment_counter_frame tools p).1 a ha
      have haflag := (actingSegment_flag tools p).1 a ha
      have hInvA : FlagInv a := by
        rcases haflag with ⟨hac, haf⟩ | ⟨hac, haf⟩
        · exact .inl ⟨by rw [hac, hpc, hc0], k0, by rw [haf, hpf, hk0]⟩
        · exact .inr ⟨hac, k0, by rw [haf, hpf, hk0]⟩
      simp only [exceptBind_ok]
      by_cases hcc : a.task_complete = true
      · rw [if_pos hcc]
        constructor
        · intro s' h
          rw [exceptPure] at h
          injection h with hs
          subst hs
          exact ⟨by rw [hai, hpi], by rw [hat, hpt], hInvA⟩
        · intro e s' h
          rw [exceptPure] at h
          exact Except.noConfusion h
      · rw [if_neg hcc]
        have hcf : a.task_complete = false := by
          cases hcv : a.task_complete
          · rfl
          · exact absurd hcv hcc
        have hak : ∃ k, a.flagWrites = List.replicate k false := by
          rcases haflag with ⟨hac, haf⟩ | ⟨hac, haf⟩
          · exact ⟨k0, by rw [haf, hpf, hk0]⟩
          · rw [hac] at hcf
            cases hcf
        obtain ⟨ka, hka⟩ := hak
        constructor
        · intro s' h
          obtain ⟨hri, hrt, hrflag⟩ := (reflectionSegment_frame a).1 s' h
          refine ⟨by rw [hri, hai, hpi], by rw [hrt, hat, hpt], ?_⟩
          rcases hrflag with ⟨hrc, hrf⟩ | ⟨hrc, hrf⟩
          · exact .inl ⟨by rw [hrc, hcf], ka, by rw [hrf, hka]⟩
          · refine .inl ⟨hrc, ka + 1, ?_⟩
            rw [hrf, hka, List.replicate_succ']
        · intro e s' h
          obtain ⟨hri, hrt, hrflag⟩ := (reflectionSegment_frame a).2 e s' h
          refine ⟨by rw [hri, hai, hpi], by rw [hrt, hat, hpt], ?_⟩
          rcases hrflag with ⟨hrc, hrf⟩ | ⟨hrc, hrf⟩
          · exact .inl ⟨by rw [hrc, hcf], ka, by rw [hrf, hka]⟩
          · refine .inl ⟨hrc, ka + 1, ?_⟩
            rw [hrf, hka, List.replicate_succ']

/-- The loop preserves the flag invariant, performs no summary call, and
advances the iteration counter by at most its fuel — on normal exit and on
an uncaught exception alike. -/
theorem loop_frame (tools : List ToolDefinition) (fuel : Nat) (s : AgentState)
    (hInv : FlagInv s) :
    (∀ s', loop tools fuel s = .ok s' →
      s'.iteration ≤ s.iteration + fuel ∧ s'.textCalls = s.textCalls ∧ FlagInv s') ∧
    (∀ e s', loop tools fuel s = .error (e, s') →
      s'.iteration ≤ s.iteration + fuel ∧ s'.textCalls = s.textCalls ∧ FlagInv s') := by
  induction fuel generalizing s with
  | zero =>
    constructor
    · intro s' h
      injection h with hs
      subst hs
      exact ⟨Nat.le_add_right _ _, rfl, hInv⟩
    · intro e s' h
      exact Except.noConfusion h
  | succ n ih =>
    simp only [loop]
    by_cases hc : s.task_complete = true
    · rw [if_pos hc]
      constructor
      · intro s' h
        injection h with hs
        subst hs
        exact ⟨Nat.le_add_right _ _, rfl, hInv⟩
      · intro e s' h
        exact Except.noConfusion h
    · rw [if_neg hc]
      have hpre : s.task_complete = false ∧ ∃ k, s.flagWrites = List.replicate k false := by
        rcases hInv with ⟨h1, h2⟩ | ⟨h1, h2⟩
        · exact ⟨h1, h2⟩
        · exact absurd h1 hc
      have hrif := runIteration_frame tools s hpre
      cases hr : runIteration tools s with
      | error ep =>
        obtain ⟨e1, sp⟩ := ep
        obtain ⟨hi1, ht1, hInv1⟩ := hrif.2 e1 sp hr
        simp only [exceptBind_error]
        constructor
        · intro s' h
          exact Except.noConfusion h
        · intro e s' h
          injection h with h2
          injection h2 with he hs
          subst he
          subst hs
          exact ⟨by omega, ht1, hInv1⟩
      | ok s1 =>
        obtain ⟨hi1, ht1, hInv1⟩ := hrif.1 s1 hr
        simp only [exceptBind_ok]
        have hrec := ih s1 hInv1
        constructor
        · intro s' h
          obtain ⟨hi2, ht2, hInv2⟩ := hrec.1 s' h
          exact ⟨by omega, by rw [ht2, ht1], hInv2⟩
        · intro e s' h
          obtain ⟨hi2, ht2, hInv2⟩ := hrec.2 e s' h
          exact ⟨by omega, by rw [ht2, ht1], hInv2⟩

/-- The post-loop pass keeps the iteration counter, the flag and its write
log, and performs at most one summary call. -/
theorem finishRun_frame (task : String) (tools : List ToolDefinition)
    (textResponse : Except String String) (s : AgentState) :
    (finishRun task tools textResponse s).iteration = s.iteration ∧
    (finishRun task tools textResponse s).flagWrites = s.flagWrites ∧
    (finishRun task tools textResponse s).task_complete = s.task_complete ∧
    (finishRun task tools textResponse s).textCalls ≤ s.textCalls + 1 := by
  unfold finishRun
  split
  · split <;> simp
  · simp

/-- C7: for every `max_iterations ≥ 1` the run performs at most
`max_iterations` plan-act(-reflect) cycles and at most one summarization
pass before returning — whether it returns normally or raises. -/
theorem c7_bounded_work (user_query : String) (max_iterations : Int)
    (tools : List ToolDefinition) (client : LLMClient)
    (h : 1 ≤ max_iterations) :
    (finalIteration user_query max_iterations tools client : Int) ≤ max_iterations ∧
    finalTextCalls user_query max_iterations tools client ≤ 1 := by
  have hInv0 : FlagInv (initialState client.toolResponses) := .inl ⟨rfl, 0, rfl⟩
  have hlf := loop_frame tools max_iterations.toNat (initialState client.toolResponses) hInv0
  unfold finalIteration finalTextCalls runAgent
  cases hl : loop tools max_iterations.toNat (initialState client.toolResponses) with
  | error ep =>
    obtain ⟨e1, sp⟩ := ep
    obtain ⟨hi, ht, _⟩ := hlf.2 e1 sp hl
    simp only [Except.map]
    simp only [initialState] at hi ht
    constructor
    · omega
    · omega
  | ok s1 =>
    obtain ⟨hi, ht, _⟩ := hlf.1 s1 hl
    obtain ⟨hfi, _, _, hft⟩ := finishRun_frame user_query tools client.textResponse s1
    simp only [Except.map]
    simp only [initialState] at hi ht
    constructor
    · rw [hfi]
      omega
    · omega

/-- C7 witness: the bound at a concrete budget of one iteration. -/
theorem c7_bounded_work_witness :
    (finalIteration "q" 1 [] ⟨[], .ok "summary"⟩ : Int) ≤ 1 ∧
    finalTextCalls "q" 1 [] ⟨[], .ok "summary"⟩ ≤ 1 :=
  c7_bounded_work "q" 1 [] ⟨[], .ok "summary"⟩ (by decide)

/-- C8: the completion flag starts `false`, and across the whole run — on
normal return and on an uncaught exception alike — the sequence of values
written to it is all-`false` optionally ended by one final `true`: it is
set to `true` at most once and never reset from `true` to `false`. -/
theorem c8_flag_monotonic (user_query : String) (max_iterations : Int)
    (tools : List ToolDefinition) (client : LLMClient) :
    (initialState client.toolResponses).task_complete = false ∧
    ∃ k, finalFlagWrites user_query max_iterations tools client =
        List.replicate k false ∨
      finalFlagWrites user_query max_iterations tools client =
        List.replicate k false ++ [true] := by
  refine ⟨rfl, ?_⟩
  have hInv0 : FlagInv (initialState client.toolResponses) := .inl ⟨rfl, 0, rfl⟩
  have hlf := loop_frame tools max_iterations.toNat (initialState client.toolResponses) hInv0
  unfold finalFlagWrites runAgent
  cases hl : loop tools max_iterations.toNat (initialState client.toolResponses) with
  | error ep =>
    obtain ⟨e1, sp⟩ := ep
    obtain ⟨_, _, hInv⟩ := hlf.2 e1 sp hl
    simp only [Except.map]
    rcases hInv with ⟨_, k, hk⟩ | ⟨_, k, hk⟩
    · exact ⟨k, .inl hk⟩
    · exact ⟨k, .inr hk⟩
  | ok s1 =>
    obtain ⟨_, _, hInv⟩ := hlf.1 s1 hl
    obtain ⟨_, hff, _, _⟩ := finishRun_frame user_query tools client.textResponse s1
    simp only [Except.map]
    rcases hInv with ⟨_, k, hk⟩ | ⟨_, k, hk⟩
    · exact ⟨k, .inl (by rw [hff, hk])⟩
    · exact ⟨k, .inr (by rw [hff, hk])⟩

/-- A scan over tools none of which both matches the requested name and
carries a handler leaves the observation and the found flag untouched. -/
theorem findAndRun_no_match (tools : List ToolDefinition) (tn tp : JValue)
    (obs0 : String)
    (h : ∀ t ∈ tools, isStrEq tn t.name = false ∨ t.function = none) :
    findAndRun tools tn tp obs0 = (obs0, false) := by
  induction tools with
  | nil => rfl
  | cons t ts ih =>
    have hc : (isStrEq tn t.name && t.function.isSome) = false := by
      rcases h t (by simp) with hh | hh
      · simp [hh]
      · simp [hh]
    unfold findAndRun
    rw [hc]
    exact ih (fun t' ht' => h t' (by simp [ht']))

/-- The scan runs the first name-matching tool that carries a handler,
skipping every earlier tool that does not. -/
theorem findAndRun_first_match (pre post : List ToolDefinition)
    (t : ToolDefinition) (f : JObj → Except String String)
    (tn tp : JValue) (obs0 : String)
    (hpre : ∀ t' ∈ pre, isStrEq tn t'.name = false ∨ t'.function = none)
    (hname : isStrEq tn t.name = true) (hfun : t.function = some f) :
    findAndRun (pre ++ t :: post) tn tp obs0 =
      (match callHandler f tp with
       | .ok res => (res, true)
       | .error e => ("Error executing tool " ++ pyStr tn ++ ": " ++ e, false)) := by
  induction pre with
  | nil =>
    simp only [List.nil_append]
    unfold findAndRun
    rw [hfun, hname]
    rfl
  | cons u us ih =>
    have hc : (isStrEq tn u.name && u.function.isSome) = false := by
      rcases hpre u (by simp) with hh | hh
      · simp [hh]
      · simp [hh]
    simp only [List.cons_append]
    unfold findAndRun
    rw [hc]
    exact ih (fun t' ht' => hpre t' (by simp [ht']))

/-- C9: tool dispatch skips a registered tool whose name matches but whose
handler is unset, invoking the first name-matching tool in registry order
whose handler is set; and when no such tool exists — even if a same-named
handlerless tool is present — the observation is exactly the not-found
message. -/
theorem c9_dispatch_skips_handlerless (tools pre post : List ToolDefinition)
    (t : ToolDefinition) (f : JObj → Except String String) (tn tp : JValue)
    (obs0 : String)
    (hnone : ∀ t' ∈ tools, isStrEq tn t'.name = false ∨ t'.function = none)
    (hpre : ∀ t' ∈ pre, isStrEq tn t'.name = false ∨ t'.function = none)
    (hname : isStrEq tn t.name = true) (hfun : t.function = some f) :
    dispatchTool tools tn tp obs0 =
      "Tool \x27" ++ pyStr tn ++ "\x27 not found or not executable." ∧
    (∀ res, callHandler f tp = .ok res →
      findAndRun (pre ++ t :: post) tn tp obs0 = (res, true)) ∧
    (∀ err, callHandler f tp = .error err →
      findAndRun (pre ++ t :: post) tn tp obs0 =
        ("Error executing tool " ++ pyStr tn ++ ": " ++ err, false)) := by
  refine ⟨?_, ?_, ?_⟩
  · unfold dispatchTool
    rw [findAndRun_no_match tools tn tp obs0 hnone]
    rfl
  · intro res hres
    rw [findAndRun_first_match pre post t f tn tp obs0 hpre hname hfun, hres]
  · intro err herr
    rw [findAndRun_first_match pre post t f tn tp obs0 hpre hname hfun, herr]

/-- C9 witness: a handlerless tool named `echo` registered ahead of an
executable tool of the same name is skipped, and alone it yields the
not-found observation. -/
theorem c9_dispatch_skips_handlerless_witness :
    dispatchTool [{ name := "echo", description := "first" }] (.str "echo")
      (.obj []) "No observation recorded." =
      "Tool \x27" ++ pyStr (.str "echo") ++ "\x27 not found or not executable." ∧
    findAndRun ([{ name := "echo", description := "first" }] ++
        { name := "echo", description := "second",
          function := some (fun _ => .ok "second result") } :: [])
      (.str "echo") (.obj []) "No observation recorded." = ("second result", true) := by
  have hc := c9_dispatch_skips_handlerless
    [{ name := "echo", description := "first" }]
    [{ name := "echo", description := "first" }] []
    { name := "echo", description := "second",
      function := some (fun _ => .ok "second result") }
    (fun _ => .ok "second result") (.str "echo") (.obj [])
    "No observation recorded."
    (by intro t' ht'; rw [List.mem_singleton] at ht'; subst ht'; exact Or.inr rfl)
    (by intro t' ht'; rw [List.mem_singleton] at ht'; subst ht'; exact Or.inr rfl)
    rfl rfl
  exact ⟨hc.1, hc.2.1 "second result" rfl⟩

/-- C10: with `max_iterations ≤ 0` the loop body never runs: no Planner,
Executor or Reflector trace entries are produced, the summarization pass
still runs once over the empty iteration log, and the returned trace is
exactly one Task Summarizer entry whose metadata reports zero iterations
and an incomplete task. -/
theorem c10_nonpositive_budget (user_query : String) (max_iterations : Int)
    (tools : List ToolDefinition) (client : LLMClient)
    (h : max_iterations ≤ 0) :
    (∃ resp, execute user_query max_iterations tools client =
      .ok (resp, [summarizerEntry user_query tools (initialState client.toolResponses)])) ∧
    (summarizerEntry user_query tools (initialState client.toolResponses)).agent_role =
      "Task Summarizer" ∧
    (summarizerEntry user_query tools (initialState client.toolResponses)).metadata =
      .obj [("iterations", .num 0), ("task_complete", .bool false),
            ("memory", memoryJson user_query tools [] [] false)] ∧
    finalIteration user_query max_iterations tools client = 0 ∧
    finalTextCalls user_query max_iterations tools client = 1 := by
  have hm : max_iterations.toNat = 0 := by omega
  refine ⟨?_, rfl, rfl, ?_, ?_⟩
  · unfold execute runAgent
    rw [hm]
    cases ht : client.textResponse with
    | ok t => exact ⟨t, rfl⟩
    | error e2 =>
      exact ⟨"Task processed, but no specific result was generated." ++
        " Error generating summary: " ++ e2, rfl⟩
  · unfold finalIteration runAgent
    rw [hm]
    cases ht : client.textResponse <;> rfl
  · unfold finalTextCalls runAgent
    rw [hm]
    cases ht : client.textResponse <;> rfl

/-- C10 witness: a zero budget with a pending plan response and a working
summary call. -/
theorem c10_nonpositive_budget_witness :
    (∃ resp, execute "q" 0 [] ⟨[planCallResponse], .ok "summary"⟩ =
      .ok (resp, [summarizerEntry "q" [] (initialState [planCallResponse])])) ∧
    (summarizerEntry "q" [] (initialState [planCallResponse])).agent_role =
      "Task Summarizer" ∧
    (summarizerEntry "q" [] (initialState [planCallResponse])).metadata =
      .obj [("iterations", .num 0), ("task_complete", .bool false),
            ("memory", memoryJson "q" [] [] [] false)] ∧
    finalIteration "q" 0 [] ⟨[planCallResponse], .ok "summary"⟩ = 0 ∧
    finalTextCalls "q" 0 [] ⟨[planCallResponse], .ok "summary"⟩ = 1 :=
  c10_nonpositive_budget "q" 0 [] ⟨[planCallResponse], .ok "summary"⟩ (by decide)

end AutonomousAgent
